import Mathlib

/-!
# fonzie: a shallow embedding of the faucet's dispatch core

Sources embedded: `chain/chain.go` (registry lookup, lazy client, `Send`,
`MultiSend`, chain-ID discovery) and `main.go` (the Discord message handler).

Conventions of the embedding.

* Go code can end in three ways: it returns, it panics at run time (a failed
  type assertion, an index out of range), or it ends the process through
  `log.Fatal`/`log.Fatalf`. `Outcome` keeps the three apart.
* A Go `error` result is `Option Err` (`none` is `nil`); a `(T, error)` result
  is `Except Err T`.
* Every call that leaves the process (HTTP GET, client construction, keyring,
  transaction broadcast, Discord API) appends an `Event` to the trace of the
  `World`; what such a call answers is given by an `Env`, and may depend on the
  whole trace so far. Logging through logrus and printing to stdout change
  nothing that is modelled and are left out.
* Strings are Lean strings; the regular expression and `strings.TrimSpace` work
  on their list of characters.
-/

namespace Fonzie

/-! ## Outcomes, values from the libraries -/

abbrev Err := String

/-- How a piece of Go code ends. -/
inductive Outcome (α : Type) where
  | ret (a : α)
  | panic (msg : String)
  | fatal (msg : String)
  deriving DecidableEq, Repr

/-- A value of `cosmostypes.Coin`: a denomination and an amount. -/
structure Coin where
  Denom : String
  Amount : Int
  deriving DecidableEq, Repr

/-- Type `cosmostypes.Coins`. -/
abbrev Coins := List Coin

/-- Type `cosmostypes.AccAddress`, a byte slice. -/
abbrev AccAddress := List Nat

/-- Type `banktypes.Input`. -/
structure Input where
  Address : String
  Coins : Coins
  deriving DecidableEq, Repr

/-- Type `banktypes.Output`. -/
structure Output where
  Address : String
  Coins : Coins
  deriving DecidableEq, Repr

/-- The two messages the faucet builds: `banktypes.MsgSend` and
`banktypes.MsgMultiSend`. -/
inductive Msg where
  | MsgSend (FromAddress ToAddress : String) (Amount : Coins)
  | MsgMultiSend (Inputs : List Input) (Outputs : List Output)
  deriving DecidableEq, Repr

/-- The fields `getClient` sets in `lens.ChainClientConfig` (the module table
`lens.ModuleBasics` is a library constant and is left out; the gas adjustment
1.2 is kept as its decimal literal). -/
structure ChainClientConfig where
  Key : String
  ChainID : String
  RPCAddr : String
  AccountPrefix : String
  KeyringBackend : String
  GasAdjustment : String
  Debug : Bool
  Timeout : String
  OutputFormat : String
  SignModeStr : String
  deriving DecidableEq, Repr

/-- A `*lens.ChainClient`: the pointer is the `handle` (its allocation number),
the pointee carries the configuration it was built from. -/
structure ChainClient where
  handle : Nat
  config : ChainClientConfig
  deriving DecidableEq, Repr

/-- Type `Chain` of `chain/chain.go`; `client = none` is the nil pointer. -/
structure Chain where
  Prefix : String
  RPC : String
  client : Option ChainClient
  deriving DecidableEq, Repr

/-- Type `Chains` of `chain/chain.go`, in configuration order. -/
abbrev Chains := List Chain

/-! ## Decoded JSON and the HTTP answer -/

/-- What `encoding/json` decodes into an `interface{}`: nil, bool, float64 (kept
as its literal), string, `[]interface{}` or `map[string]interface{}`. A map is
an association list; a key is looked up by its first entry. -/
inductive GoValue where
  | null
  | bool (b : Bool)
  | number (literal : String)
  | str (s : String)
  | array (items : List GoValue)
  | object (fields : List (String × GoValue))

/-- The Go map index `m[key]`: the value stored under `key`, or nil. -/
def mapIndex : List (String × GoValue) → String → GoValue
  | [], _ => GoValue.null
  | (k, v) :: rest, key => if k = key then v else mapIndex rest key

/-- What `rpc.R().Get("/commit")` gives back: an error (no answer, or a body that
does not decode), or a response with its status code and the map resty decoded
the body into (the map is empty when resty decoded nothing). -/
inductive HttpResult where
  | transportError (e : Err)
  | response (status : Nat) (body : List (String × GoValue))

/-! ## The world outside the process -/

/-- One call that leaves the process. -/
inductive Event where
  | getCommit (rpc : String)
  | newChainClient (cfg : ChainClientConfig)
  | restoreKey (client : Nat) (name mnemonic : String)
  | sendMsg (client : Nat) (msg : Msg)
  | messageReactionAdd (channelID messageID emoji : String)
  | channelMessageSend (channelID content : String)
  deriving DecidableEq, Repr

/-- The trace of calls made so far and the number of clients allocated. -/
structure World where
  trace : List Event
  allocated : Nat
  deriving DecidableEq, Repr

/-- Append one event to the trace. -/
def World.emit (w : World) (e : Event) : World :=
  { w with trace := w.trace ++ [e] }

/-- What the collaborators answer. Calls whose answer can change over time take
the trace so far; bech32 encoding and decoding are pure. -/
structure Env where
  httpGetCommit : List Event → String → HttpResult
  newChainClient : List Event → ChainClientConfig → Option Err
  restoreKey : List Event → ChainClient → String → String → Except Err String
  getKeyAddress : List Event → ChainClient → Except Err AccAddress
  encodeBech32AccAddr : ChainClient → AccAddress → Except Err String
  decodeBech32AccAddr : ChainClient → String → Except Err AccAddress
  sendMsg : List Event → ChainClient → Msg → Option Err
  messageReactionAdd : List Event → String → String → String → Option Err
  channelMessageSend : List Event → String → String → Option Err

/-! ## chain/chain.go -/

/-- Method `Chains.FindByPrefix`: the first chain whose `Prefix` equals the
argument, or nil. -/
def FindByPrefix : Chains → String → Option Chain
  | [], _ => none
  | info :: rest, pfx => if info.Prefix = pfx then some info else FindByPrefix rest pfx

/-- The type assertion `v.(map[string]interface{})`, without the comma-ok form:
it panics on every value that is not a map, nil included. -/
def assertMap : GoValue → Outcome (List (String × GoValue))
  | GoValue.object fields => Outcome.ret fields
  | _ => Outcome.panic "interface conversion: interface {} is not map[string]interface {}"

/-- The type assertion `v.(string)`, without the comma-ok form. -/
def assertString : GoValue → Outcome String
  | GoValue.str s => Outcome.ret s
  | _ => Outcome.panic "interface conversion: interface {} is not string"

/-- Lines 167 to 172 of `getChainID`: the descent through
`result.signed_header.header.chain_id` in the decoded body. -/
def extractChainID (respbody : List (String × GoValue)) : Outcome (Except Err String) :=
  let result := mapIndex respbody "result"
  match assertMap result with
  | Outcome.panic m => Outcome.panic m
  | Outcome.fatal m => Outcome.fatal m
  | Outcome.ret resultMap =>
    let signedHeader := mapIndex resultMap "signed_header"
    match assertMap signedHeader with
    | Outcome.panic m => Outcome.panic m
    | Outcome.fatal m => Outcome.fatal m
    | Outcome.ret signedHeaderMap =>
      let header := mapIndex signedHeaderMap "header"
      match assertMap header with
      | Outcome.panic m => Outcome.panic m
      | Outcome.fatal m => Outcome.fatal m
      | Outcome.ret headerMap =>
        match assertString (mapIndex headerMap "chain_id") with
        | Outcome.panic m => Outcome.panic m
        | Outcome.fatal m => Outcome.fatal m
        | Outcome.ret chainID => Outcome.ret (Except.ok chainID)

/-- Function `getChainID`, given what the GET answered. `resp.IsError()` is
status code above 399. -/
def getChainID (r : HttpResult) : Outcome (Except Err String) :=
  match r with
  | HttpResult.transportError e => Outcome.ret (Except.error e)
  | HttpResult.response status body =>
    if status > 399 then
      Outcome.ret (Except.error
        ("could not get chain id; http error code received " ++ toString status))
    else extractChainID body

/-- The configuration `getClient` builds. -/
def chainConfig (chain : Chain) (chainID : String) : ChainClientConfig :=
  { Key := "anon"
    ChainID := chainID
    RPCAddr := chain.RPC
    AccountPrefix := chain.Prefix
    KeyringBackend := "memory"
    GasAdjustment := "1.2"
    Debug := true
    Timeout := "20s"
    OutputFormat := "json"
    SignModeStr := "direct" }

/-- Method `(chain *Chain) getClient`: the pointer receiver is the `Chain` passed
in and handed back (updated) next to the client. -/
def getClient (env : Env) (w : World) (chain : Chain) :
    Outcome (ChainClient × Chain) × World :=
  match chain.client with
  | some c => (Outcome.ret (c, chain), w)
  | none =>
    let w1 := w.emit (Event.getCommit chain.RPC)
    match getChainID (env.httpGetCommit w.trace chain.RPC) with
    | Outcome.panic m => (Outcome.panic m, w1)
    | Outcome.fatal m => (Outcome.fatal m, w1)
    | Outcome.ret (Except.error e) =>
      (Outcome.fatal ("failed to get chain id for " ++ chain.Prefix ++ ". err: " ++ e), w1)
    | Outcome.ret (Except.ok chainID) =>
      let cfg := chainConfig chain chainID
      let w2 := w1.emit (Event.newChainClient cfg)
      match env.newChainClient w1.trace cfg with
      | some e => (Outcome.fatal e, w2)
      | none =>
        let c : ChainClient := { handle := w2.allocated, config := cfg }
        (Outcome.ret (c, { chain with client := some c }),
          { w2 with allocated := w2.allocated + 1 })

/-- Method `(chain *Chain) ImportMnemonic`: pointer receiver, so the client that
`getClient` stores stays in the caller's chain. -/
def ImportMnemonic (env : Env) (w : World) (chain : Chain) (mnemonic : String) :
    Outcome (Option Err × Chain) × World :=
  match getClient env w chain with
  | (Outcome.panic m, w1) => (Outcome.panic m, w1)
  | (Outcome.fatal m, w1) => (Outcome.fatal m, w1)
  | (Outcome.ret (c, chain1), w1) =>
    let w2 := w1.emit (Event.restoreKey c.handle "anon" mnemonic)
    match env.restoreKey w1.trace c "anon" mnemonic with
    | Except.error e => (Outcome.ret (some e, chain1), w2)
    | Except.ok _ => (Outcome.ret (none, chain1), w2)

/-- Method `Chain.sendMsg`: one call of `c.SendMsg`. -/
def sendMsg (env : Env) (w : World) (msg : Msg) (c : ChainClient) : Option Err × World :=
  (env.sendMsg w.trace c msg, w.emit (Event.sendMsg c.handle msg))

/-- The loop of `MultiSend` from index `i` on, with the inputs and outputs
appended so far. `coins[i]` panics when `coins` is shorter than `toAddr`. -/
def multiSendLoop (env : Env) (c : ChainClient) (faucetAddrStr : String) (coins : List Coins) :
    List AccAddress → Nat → List Input → List Output →
      Outcome (Except Err (List Input × List Output))
  | [], _, inputs, outputs => Outcome.ret (Except.ok (inputs, outputs))
  | a :: rest, i, inputs, outputs =>
    match env.encodeBech32AccAddr c a with
    | Except.error e => Outcome.ret (Except.error e)
    | Except.ok recipient =>
      match coins[i]? with
      | none => Outcome.panic "index out of range"
      | some ci =>
        multiSendLoop env c faucetAddrStr coins rest (i + 1)
          (inputs ++ [{ Address := faucetAddrStr, Coins := ci }])
          (outputs ++ [{ Address := recipient, Coins := ci }])

/-- Method `(chain Chain) MultiSend`: value receiver, so `getClient` works on a
copy of the chain and the caller's chain is unchanged. -/
def MultiSend (env : Env) (w : World) (chain : Chain) (toAddr : List AccAddress)
    (coins : List Coins) : Outcome (Option Err) × World :=
  match getClient env w chain with
  | (Outcome.panic m, w1) => (Outcome.panic m, w1)
  | (Outcome.fatal m, w1) => (Outcome.fatal m, w1)
  | (Outcome.ret (c, _), w1) =>
    match env.getKeyAddress w1.trace c with
    | Except.error e => (Outcome.ret (some e), w1)
    | Except.ok faucetRawAddr =>
      match env.encodeBech32AccAddr c faucetRawAddr with
      | Except.error e => (Outcome.ret (some e), w1)
      | Except.ok faucetAddrStr =>
        match multiSendLoop env c faucetAddrStr coins toAddr 0 [] [] with
        | Outcome.panic m => (Outcome.panic m, w1)
        | Outcome.fatal m => (Outcome.fatal m, w1)
        | Outcome.ret (Except.error e) => (Outcome.ret (some e), w1)
        | Outcome.ret (Except.ok (inputs, outputs)) =>
          let r := sendMsg env w1 (Msg.MsgMultiSend inputs outputs) c
          (Outcome.ret r.1, r.2)

/-- Method `(chain Chain) DecodeAddr`: value receiver. -/
def DecodeAddr (env : Env) (w : World) (chain : Chain) (a : String) :
    Outcome (Except Err AccAddress) × World :=
  match getClient env w chain with
  | (Outcome.panic m, w1) => (Outcome.panic m, w1)
  | (Outcome.fatal m, w1) => (Outcome.fatal m, w1)
  | (Outcome.ret (c, _), w1) => (Outcome.ret (env.decodeBech32AccAddr c a), w1)

/-- Method `(chain Chain) Send`: value receiver. -/
def Send (env : Env) (w : World) (chain : Chain) (toAddr : String) (coins : Coins) :
    Outcome (Option Err) × World :=
  match getClient env w chain with
  | (Outcome.panic m, w1) => (Outcome.panic m, w1)
  | (Outcome.fatal m, w1) => (Outcome.fatal m, w1)
  | (Outcome.ret (c, _), w1) =>
    match env.getKeyAddress w1.trace c with
    | Except.error e => (Outcome.ret (some e), w1)
    | Except.ok faucetRawAddr =>
      match env.encodeBech32AccAddr c faucetRawAddr with
      | Except.error e => (Outcome.ret (some e), w1)
      | Except.ok faucetAddr =>
        let r := sendMsg env w1 (Msg.MsgSend faucetAddr toAddr coins) c
        (Outcome.ret r.1, r.2)

/-- One public operation of a chain, with its arguments. -/
inductive Op where
  | ImportMnemonic (mnemonic : String)
  | Send (toAddr : String) (coins : Coins)
  | MultiSend (toAddr : List AccAddress) (coins : List Coins)
  | DecodeAddr (a : String)

/-- Apply one operation to the chain a registry entry points to; the result is
the chain the entry points to afterwards. Only `ImportMnemonic` has a pointer
receiver; the other three work on a copy, which is dropped when they return. -/
def applyOp (env : Env) (w : World) (chain : Chain) : Op → Outcome Chain × World
  | Op.ImportMnemonic mnemonic =>
    match ImportMnemonic env w chain mnemonic with
    | (Outcome.panic m, w1) => (Outcome.panic m, w1)
    | (Outcome.fatal m, w1) => (Outcome.fatal m, w1)
    | (Outcome.ret (_, chain1), w1) => (Outcome.ret chain1, w1)
  | Op.Send toAddr coins =>
    match Send env w chain toAddr coins with
    | (Outcome.panic m, w1) => (Outcome.panic m, w1)
    | (Outcome.fatal m, w1) => (Outcome.fatal m, w1)
    | (Outcome.ret _, w1) => (Outcome.ret chain, w1)
  | Op.MultiSend toAddr coins =>
    match MultiSend env w chain toAddr coins with
    | (Outcome.panic m, w1) => (Outcome.panic m, w1)
    | (Outcome.fatal m, w1) => (Outcome.fatal m, w1)
    | (Outcome.ret _, w1) => (Outcome.ret chain, w1)
  | Op.DecodeAddr a =>
    match DecodeAddr env w chain a with
    | (Outcome.panic m, w1) => (Outcome.panic m, w1)
    | (Outcome.fatal m, w1) => (Outcome.fatal m, w1)
    | (Outcome.ret _, w1) => (Outcome.ret chain, w1)

/-- Apply a sequence of operations, one after the other, to the same registry
entry; a panic or a fatal exit ends the sequence. -/
def runOps (env : Env) : World → Chain → List Op → Outcome Chain × World
  | w, chain, [] => (Outcome.ret chain, w)
  | w, chain, op :: ops =>
    match applyOp env w chain op with
    | (Outcome.panic m, w1) => (Outcome.panic m, w1)
    | (Outcome.fatal m, w1) => (Outcome.fatal m, w1)
    | (Outcome.ret chain1, w1) => runOps env w1 chain1 ops

/-- Is the event a chain-ID discovery round trip? -/
def Event.isDiscovery : Event → Bool
  | Event.getCommit _ => true
  | _ => false

/-- Is the event the construction of a client? -/
def Event.isClientConstruction : Event → Bool
  | Event.newChainClient _ => true
  | _ => false

/-- Is the event a call of the Discord API? -/
def Event.isDiscord : Event → Bool
  | Event.messageReactionAdd _ _ _ => true
  | Event.channelMessageSend _ _ => true
  | _ => false

/-! ## main.go -/

/-- Function `unicode.IsSpace`: the characters with Unicode's White Space
property. -/
def isSpace (c : Char) : Bool :=
  let n := c.toNat
  (9 ≤ n && n ≤ 13) || n == 32 || n == 133 || n == 160 || n == 5760 ||
    (8192 ≤ n && n ≤ 8202) || n == 8232 || n == 8233 || n == 8239 || n == 8287 ||
    n == 12288

/-- Function `strings.TrimSpace` on the characters of a string: leading and
trailing white space removed. -/
def trimSpaceChars (s : List Char) : List Char :=
  ((s.dropWhile isSpace).reverse.dropWhile isSpace).reverse

/-- Function `strings.TrimSpace`. -/
def TrimSpace (s : String) : String :=
  String.mk (trimSpaceChars s.data)

/-- The pattern `!(request|help)(.*)` tried at the start of `s`: the two
submatches when it matches there. The alternation tries `request` first; the
dot matches every character but the newline, and the star is greedy. -/
def matchHere (s : List Char) : Option (List Char × List Char) :=
  if "!request".data.isPrefixOf s then
    some ("request".data, (s.drop 8).takeWhile (fun c => c != '\n'))
  else if "!help".data.isPrefixOf s then
    some ("help".data, (s.drop 5).takeWhile (fun c => c != '\n'))
  else none

/-- The first element of `re.FindAllStringSubmatch(content, -1)`, that is the
submatches of the leftmost match, or `none` when the result is empty. -/
def firstSubmatch : List Char → Option (List Char × List Char)
  | [] => none
  | c :: cs =>
    match matchHere (c :: cs) with
    | some r => some r
    | none => firstSubmatch cs

/-- Lines 134 to 138 of `messageCreate`: the command word and its argument, both
trimmed, when the pattern matches somewhere in the content. -/
def parseCommand (content : String) : Option (String × String) :=
  match firstSubmatch content.data with
  | none => none
  | some (g1, g2) => some (TrimSpace (String.mk g1), TrimSpace (String.mk g2))

/-- The message event, as far as `messageCreate` reads it. -/
structure MessageCreate where
  AuthorID : String
  ChannelID : String
  ID : String
  Content : String
  deriving DecidableEq, Repr

/-- Method `Coin.String`: the amount followed by the denomination. -/
def coinString (c : Coin) : String :=
  toString c.Amount ++ c.Denom

/-- Method `Coins.String`: the coins joined by commas. -/
def coinsString (coins : Coins) : String :=
  ",".intercalate (coins.map coinString)

/-- The coins of a request: `NewCoins(NewCoin("uumee", NewInt(100000000)))`. -/
def requestCoins : Coins := [{ Denom := "uumee", Amount := 100000000 }]

/-- Function `help`: send the help document; the caller drops the error. -/
def help (env : Env) (w : World) (channelID helpMsg : String) : Option Err × World :=
  (env.channelMessageSend w.trace channelID helpMsg,
    w.emit (Event.channelMessageSend channelID helpMsg))

/-- Function `debugError`: report a non-nil error to the channel, do nothing on
nil. -/
def debugError (w : World) (channelID : String) (err : Option Err) : World :=
  match err with
  | none => w
  | some e => w.emit (Event.channelMessageSend channelID ("Error:\n `" ++ e ++ "`"))

/-- Lines 107 to 123 of `messageCreate`: the answer to `!ping`. The flag tells
whether the handler goes on (`false` after one of the early returns). -/
def pingAck (env : Env) (w : World) (m : MessageCreate) : Bool × World :=
  if m.Content = "!ping" then
    let w1 := w.emit (Event.messageReactionAdd m.ChannelID m.ID "👍")
    match env.messageReactionAdd w.trace m.ChannelID m.ID "👍" with
    | some _ => (false, w1)
    | none =>
      let w2 := w1.emit (Event.messageReactionAdd m.ChannelID m.ID "💸")
      match env.messageReactionAdd w1.trace m.ChannelID m.ID "💸" with
      | some _ => (false, w2)
      | none =>
        let w3 := w2.emit (Event.channelMessageSend m.ChannelID "Pong!")
        match env.channelMessageSend w2.trace m.ChannelID "Pong!" with
        | some _ => (false, w3)
        | none => (true, w3)
  else (true, w)

/-- The text of the reply to a served request. -/
def sentReply (dstAddr : String) (coins : Coins) : String :=
  "Your address is `" ++ dstAddr ++ "`; sent coins: " ++ coinsString coins ++ "."

/-- Line 143 of `messageCreate`: the bech32 prefix under which the chain of a
request is looked up. It is a constant; the comment of line 142 says it is to
be inferred from the address. -/
def requestPrefix : String := "umee"

/-- Lines 145 to 172 of `messageCreate`: the `request` case, for the prefix
`pfx` bound at line 143 and the destination address `dstAddr`. The call passes
a context first, which `Chain.Send` as defined does not take; the destination
and the coins are passed on as they are. `FindByPrefix` gives a pointer and
`Send` has a value receiver, so the registry is not changed. -/
def requestCase (env : Env) (chains : Chains) (w : World) (m : MessageCreate)
    (pfx dstAddr : String) : Outcome Unit × World :=
  let coins := requestCoins
  match FindByPrefix chains pfx with
  | none => (Outcome.fatal (pfx ++ " prefix is not supported"), w)
  | some chain =>
    match Send env w chain dstAddr coins with
    | (Outcome.panic msg, w1) => (Outcome.panic msg, w1)
    | (Outcome.fatal msg, w1) => (Outcome.fatal msg, w1)
    | (Outcome.ret (some e), w1) => (Outcome.fatal e, w1)
    | (Outcome.ret none, w1) =>
      let w2 := w1.emit (Event.messageReactionAdd m.ChannelID m.ID "👍")
      match env.messageReactionAdd w1.trace m.ChannelID m.ID "👍" with
      | some _ => (Outcome.ret (), w2)
      | none =>
        let w3 := w2.emit (Event.messageReactionAdd m.ChannelID m.ID "💸")
        match env.messageReactionAdd w2.trace m.ChannelID m.ID "💸" with
        | some _ => (Outcome.ret (), w3)
        | none =>
          (Outcome.ret (),
            w3.emit (Event.channelMessageSend m.ChannelID (sentReply dstAddr coins)))

/-- Lines 125 to 179 of `messageCreate`: the command part. The pattern is a
constant that compiles, so `err` is nil where the matches are examined. -/
def commandPart (env : Env) (chains : Chains) (helpMsg : String) (w : World)
    (m : MessageCreate) : Outcome Unit × World :=
  match parseCommand m.Content with
  | some (cmd, args) =>
    if cmd = "request" then requestCase env chains w m requestPrefix args
    else (Outcome.ret (), (help env w m.ChannelID helpMsg).2)
  | none => (Outcome.ret (), debugError w m.ChannelID none)

/-- Function `messageCreate`: the handler of one message. `selfID` is
`s.State.User.ID`, `helpMsg` the embedded help document, `chains` the
registry. -/
def messageCreate (env : Env) (chains : Chains) (selfID helpMsg : String) (w : World)
    (m : MessageCreate) : Outcome Unit × World :=
  if m.AuthorID = selfID then (Outcome.ret (), w)
  else
    match pingAck env w m with
    | (false, w1) => (Outcome.ret (), w1)
    | (true, w1) => commandPart env chains helpMsg w1 m

/-! ## Measures and predicates over traces -/

/-- The number of chain-ID discovery round trips in a trace. -/
def discoveries (tr : List Event) : Nat := tr.countP Event.isDiscovery

/-- The number of client constructions in a trace. -/
def constructions (tr : List Event) : Nat := tr.countP Event.isClientConstruction

/-- The three calls of a complete answer to `!ping`. -/
def pingEvents (m : MessageCreate) : List Event :=
  [Event.messageReactionAdd m.ChannelID m.ID "👍",
   Event.messageReactionAdd m.ChannelID m.ID "💸",
   Event.channelMessageSend m.ChannelID "Pong!"]

/-- Every call of the Discord API succeeds. -/
def discordOK (env : Env) : Prop :=
  (∀ tr c i e, env.messageReactionAdd tr c i e = none) ∧
    ∀ tr c t, env.channelMessageSend tr c t = none

/-- A message from a user in a channel. -/
def userMessage (content : String) : MessageCreate :=
  { AuthorID := "user", ChannelID := "chan", ID := "42", Content := content }

/-! ## Concrete collaborators used to evaluate the code -/

/-- The body of the example answer of `/commit`, with chain id `umee-1`. -/
def commitBody : List (String × GoValue) :=
  [("result", GoValue.object
    [("signed_header", GoValue.object
      [("header", GoValue.object
        [("version", GoValue.object [("block", GoValue.str "11")]),
         ("chain_id", GoValue.str "umee-1"),
         ("height", GoValue.str "731426")])])])]

/-- Collaborators that all answer with success: the RPC node serves
`commitBody`, the faucet key is the address `[1, 2, 3]`, and an address is
encoded as the account prefix followed by the number of its bytes. -/
def envOK : Env :=
  { httpGetCommit := fun _ _ => HttpResult.response 200 commitBody
    newChainClient := fun _ _ => none
    restoreKey := fun _ _ _ _ => Except.ok "umee1faucet"
    getKeyAddress := fun _ _ => Except.ok [1, 2, 3]
    encodeBech32AccAddr := fun c a => Except.ok (c.config.AccountPrefix ++ toString a.length)
    decodeBech32AccAddr := fun _ _ => Except.ok [1, 2, 3]
    sendMsg := fun _ _ _ => none
    messageReactionAdd := fun _ _ _ _ => none
    channelMessageSend := fun _ _ _ => none }

/-- Collaborators as `envOK`, but the broadcast of a transaction fails. -/
def envSendFails : Env :=
  { envOK with sendMsg := fun _ _ _ => some "insufficient funds" }

/-- Collaborators whose RPC node is unreachable and whose client construction
fails. -/
def envDown : Env :=
  { envOK with
    httpGetCommit := fun _ _ => HttpResult.transportError "connection refused"
    newChainClient := fun _ _ => some "no client" }

/-- The world at the start: no call made, no client allocated. -/
def world0 : World := { trace := [], allocated := 0 }

/-- The umee chain as configured, its client not yet created. -/
def umeeChain : Chain := { Prefix := "umee", RPC := "http://rpc.umee", client := none }

/-- A second configured chain. -/
def osmoChain : Chain := { Prefix := "osmo", RPC := "http://rpc.osmo", client := none }

/-- The client `getClient` builds for `umeeChain` in `world0`. -/
def umeeClient : ChainClient :=
  { handle := 0, config := chainConfig umeeChain "umee-1" }

/-! ## Registry lookup -/

theorem FindByPrefix_eq_none_iff (chains : Chains) (p : String) :
    FindByPrefix chains p = none ↔ ∀ c ∈ chains, c.Prefix ≠ p := by
  induction chains with
  | nil => simp [FindByPrefix]
  | cons info rest ih =>
    by_cases h : info.Prefix = p
    · simp [FindByPrefix, h]
    · simp [FindByPrefix, h, ih]

theorem FindByPrefix_eq_some_iff (chains : Chains) (p : String) (c : Chain) :
    FindByPrefix chains p = some c ↔
      ∃ pre post, chains = pre ++ c :: post ∧ c.Prefix = p ∧ ∀ x ∈ pre, x.Prefix ≠ p := by
  induction chains with
  | nil => simp [FindByPrefix]
  | cons info rest ih =>
    by_cases h : info.Prefix = p
    · simp only [FindByPrefix, h, if_true, Option.some.injEq]
      constructor
      · intro hc
        subst hc
        exact ⟨[], rest, rfl, h, by simp⟩
      · rintro ⟨pre, post, hsplit, _, hpre⟩
        cases pre with
        | nil =>
          simp only [List.nil_append, List.cons.injEq] at hsplit
          exact hsplit.1
        | cons x pre1 =>
          simp only [List.cons_append, List.cons.injEq] at hsplit
          exact absurd (hsplit.1 ▸ h) (hpre x (by simp))
    · simp only [FindByPrefix, h, if_false, ih]
      constructor
      · rintro ⟨pre, post, hsplit, hp, hpre⟩
        refine ⟨info :: pre, post, by simp [hsplit], hp, ?_⟩
        intro x hx
        rcases List.mem_cons.mp hx with hx | hx
        · exact hx ▸ h
        · exact hpre x hx
      · rintro ⟨pre, post, hsplit, hp, hpre⟩
        cases pre with
        | nil =>
          simp only [List.nil_append, List.cons.injEq] at hsplit
          exact absurd (hsplit.1 ▸ hp) h
        | cons x pre1 =>
          simp only [List.cons_append, List.cons.injEq] at hsplit
          exact ⟨pre1, post, hsplit.2, hp, fun y hy => hpre y (by simp [hy])⟩

theorem FindByPrefix_of_nodup (chains : Chains)
    (hnd : (chains.map Chain.Prefix).Nodup) (c : Chain) (hc : c ∈ chains) :
    FindByPrefix chains c.Prefix = some c := by
  induction chains with
  | nil => simp at hc
  | cons info rest ih =>
    simp only [List.map_cons, List.nodup_cons, List.mem_map, not_exists, not_and] at hnd
    rcases List.mem_cons.mp hc with hc | hc
    · subst hc
      simp [FindByPrefix]
    · have hne : info.Prefix ≠ c.Prefix := fun h => hnd.1 c hc h.symm
      simp only [FindByPrefix, hne, if_false]
      exact ih hnd.2 hc

/-- C1: `FindByPrefix` gives nil exactly when no chain has the prefix; it gives a
chain exactly when that chain is the first one, in configuration order, whose
prefix equals the argument; and when the prefixes are pairwise distinct every
configured chain is found under its own prefix. -/
theorem FindByPrefix_first_exact_match (chains : Chains) (p : String) :
    (FindByPrefix chains p = none ↔ ∀ c ∈ chains, c.Prefix ≠ p) ∧
    (∀ c, FindByPrefix chains p = some c ↔
      ∃ pre post, chains = pre ++ c :: post ∧ c.Prefix = p ∧ ∀ x ∈ pre, x.Prefix ≠ p) ∧
    ((chains.map Chain.Prefix).Nodup → ∀ c ∈ chains, FindByPrefix chains c.Prefix = some c) :=
  ⟨FindByPrefix_eq_none_iff chains p, FindByPrefix_eq_some_iff chains p,
    fun hnd c hc => FindByPrefix_of_nodup chains hnd c hc⟩

/-- C1 at the registry `[umee, osmo]`: the prefixes are distinct, `osmo` resolves
to the second chain and `juno` is not found. -/
theorem FindByPrefix_first_exact_match_witness :
    ([umeeChain, osmoChain].map Chain.Prefix).Nodup ∧
    FindByPrefix [umeeChain, osmoChain] osmoChain.Prefix = some osmoChain ∧
    FindByPrefix [umeeChain, osmoChain] "juno" = none :=
  ⟨by decide,
    (FindByPrefix_first_exact_match [umeeChain, osmoChain] "osmo").2.2 (by decide)
      osmoChain (by decide),
    (FindByPrefix_first_exact_match [umeeChain, osmoChain] "juno").1.mpr (by decide)⟩

/-! ## Chain-ID discovery -/

theorem extractChainID_of_path (body result signedHeader header : List (String × GoValue))
    (chainID : String)
    (h1 : mapIndex body "result" = GoValue.object result)
    (h2 : mapIndex result "signed_header" = GoValue.object signedHeader)
    (h3 : mapIndex signedHeader "header" = GoValue.object header)
    (h4 : mapIndex header "chain_id" = GoValue.str chainID) :
    extractChainID body = Outcome.ret (Except.ok chainID) := by
  simp [extractChainID, assertMap, assertString, h1, h2, h3, h4]

theorem extractChainID_example :
    getChainID (HttpResult.response 200 commitBody) = Outcome.ret (Except.ok "umee-1") := by
  rfl

theorem assertMap_ret_or_panic (v : GoValue) :
    (∃ fields, v = GoValue.object fields ∧ assertMap v = Outcome.ret fields) ∨
      ∃ msg, assertMap v = Outcome.panic msg := by
  cases v <;> simp [assertMap]

theorem assertString_ret_or_panic (v : GoValue) :
    (∃ s, v = GoValue.str s ∧ assertString v = Outcome.ret s) ∨
      ∃ msg, assertString v = Outcome.panic msg := by
  cases v <;> simp [assertString]

theorem extractChainID_ok_or_panic (body : List (String × GoValue)) :
    (∃ chainID, extractChainID body = Outcome.ret (Except.ok chainID)) ∨
      ∃ msg, extractChainID body = Outcome.panic msg := by
  unfold extractChainID
  rcases assertMap_ret_or_panic (mapIndex body "result") with ⟨r, _, h1⟩ | ⟨msg, h1⟩
  · rcases assertMap_ret_or_panic (mapIndex r "signed_header") with ⟨sh, _, h2⟩ | ⟨msg, h2⟩
    · rcases assertMap_ret_or_panic (mapIndex sh "header") with ⟨hd, _, h3⟩ | ⟨msg, h3⟩
      · rcases assertString_ret_or_panic (mapIndex hd "chain_id") with ⟨cid, _, h4⟩ | ⟨msg, h4⟩
        · exact Or.inl ⟨cid, by simp [h1, h2, h3, h4]⟩
        · exact Or.inr ⟨msg, by simp [h1, h2, h3, h4]⟩
      · exact Or.inr ⟨msg, by simp [h1, h2, h3]⟩
    · exact Or.inr ⟨msg, by simp [h1, h2]⟩
  · exact Or.inr ⟨msg, by simp [h1]⟩

/-- C7: on a decoded body that lacks a level of the path
`result.signed_header.header.chain_id` the extraction of `getChainID` panics and
returns no error: so it does on the empty body, on a body whose `result` is a
string, and on a body whose `header` has no `chain_id`; and on no body at all
does the extraction return an error. -/
theorem getChainID_missing_level_panics :
    getChainID (HttpResult.response 200 []) =
      Outcome.panic "interface conversion: interface {} is not map[string]interface {}" ∧
    getChainID (HttpResult.response 200 [("result", GoValue.str "x")]) =
      Outcome.panic "interface conversion: interface {} is not map[string]interface {}" ∧
    getChainID (HttpResult.response 200
      [("result", GoValue.object [("signed_header", GoValue.object
        [("header", GoValue.object [("height", GoValue.str "1")])])])]) =
      Outcome.panic "interface conversion: interface {} is not string" ∧
    ∀ body e, extractChainID body ≠ Outcome.ret (Except.error e) := by
  refine ⟨rfl, rfl, rfl, ?_⟩
  intro body e h
  rcases extractChainID_ok_or_panic body with ⟨cid, hc⟩ | ⟨msg, hc⟩
  · rw [hc] at h
    simp at h
  · rw [hc] at h
    simp at h

/-! ## The lazy client -/

theorem getClient_of_client (env : Env) (w : World) (chain : Chain) (c : ChainClient)
    (h : chain.client = some c) :
    getClient env w chain = (Outcome.ret (c, chain), w) := by
  simp [getClient, h]

theorem getClient_ret_client (env : Env) (w w1 : World) (chain chain1 : Chain)
    (c : ChainClient) (h : getClient env w chain = (Outcome.ret (c, chain1), w1)) :
    chain1.client = some c := by
  unfold getClient at h
  cases hcl : chain.client with
  | some c0 =>
    simp only [hcl, Prod.mk.injEq, Outcome.ret.injEq] at h
    obtain ⟨⟨h1, h2⟩, _⟩ := h
    rw [← h2, hcl, h1]
  | none =>
    simp only [hcl] at h
    split at h
    · simp at h
    · simp at h
    · simp at h
    · split at h
      · simp at h
      · simp only [Prod.mk.injEq, Outcome.ret.injEq] at h
        obtain ⟨⟨h1, h2⟩, _⟩ := h
        rw [← h2, ← h1]

/-- C9: when `getClient` has returned a client for a chain, a second call on the
same chain returns the same client and leaves the world as it is (no discovery
round trip, no client constructed, nothing allocated), whatever the
collaborators would answer. -/
theorem getClient_idempotent (env env2 : Env) (w w1 : World) (chain chain1 : Chain)
    (c : ChainClient) (h : getClient env w chain = (Outcome.ret (c, chain1), w1)) :
    getClient env2 w1 chain1 = (Outcome.ret (c, chain1), w1) :=
  getClient_of_client env2 w1 chain1 c (getClient_ret_client env w w1 chain chain1 c h)

/-- C9 on the umee chain: the first call discovers the chain id and builds client
0; the second call, even against collaborators that would fail, returns client 0
and makes no call. -/
theorem getClient_idempotent_witness :
    getClient envOK world0 umeeChain =
      (Outcome.ret (umeeClient, { umeeChain with client := some umeeClient }),
        { trace := [Event.getCommit "http://rpc.umee",
                    Event.newChainClient (chainConfig umeeChain "umee-1")],
          allocated := 1 }) ∧
    getClient envDown
      { trace := [Event.getCommit "http://rpc.umee",
                  Event.newChainClient (chainConfig umeeChain "umee-1")],
        allocated := 1 }
      { umeeChain with client := some umeeClient } =
      (Outcome.ret (umeeClient, { umeeChain with client := some umeeClient }),
        { trace := [Event.getCommit "http://rpc.umee",
                    Event.newChainClient (chainConfig umeeChain "umee-1")],
          allocated := 1 }) :=
  ⟨rfl, getClient_idempotent envOK envDown world0 _ umeeChain _ umeeClient rfl⟩

/-! ## Send -/

/-- C3: once `getClient` has returned the client, `Send` returns, and it returns
an error exactly when the faucet address cannot be resolved, or cannot be
encoded, or the submission fails. When resolution or encoding fails the world
is untouched (nothing is submitted); otherwise the only call made is the
submission of one `MsgSend` from the encoded faucet address to the destination
string as given, with the coins as given. -/
theorem Send_error_iff_step_fails (env : Env) (w w1 : World) (chain chain1 : Chain)
    (c : ChainClient) (toAddr : String) (coins : Coins)
    (hc : getClient env w chain = (Outcome.ret (c, chain1), w1)) :
    ∃ r w2, Send env w chain toAddr coins = (Outcome.ret r, w2) ∧
      (r ≠ none ↔
        ((∃ e, env.getKeyAddress w1.trace c = Except.error e) ∨
         (∃ raw e, env.getKeyAddress w1.trace c = Except.ok raw ∧
            env.encodeBech32AccAddr c raw = Except.error e) ∨
         (∃ raw faucetAddr e, env.getKeyAddress w1.trace c = Except.ok raw ∧
            env.encodeBech32AccAddr c raw = Except.ok faucetAddr ∧
            env.sendMsg w1.trace c (Msg.MsgSend faucetAddr toAddr coins) = some e))) ∧
      (((∃ e, env.getKeyAddress w1.trace c = Except.error e) ∨
         (∃ raw e, env.getKeyAddress w1.trace c = Except.ok raw ∧
            env.encodeBech32AccAddr c raw = Except.error e)) → w2 = w1) ∧
      (∀ raw faucetAddr, env.getKeyAddress w1.trace c = Except.ok raw →
          env.encodeBech32AccAddr c raw = Except.ok faucetAddr →
          r = env.sendMsg w1.trace c (Msg.MsgSend faucetAddr toAddr coins) ∧
          w2.allocated = w1.allocated ∧
          w2.trace = w1.trace ++ [Event.sendMsg c.handle (Msg.MsgSend faucetAddr toAddr coins)]) := by
  cases hk : env.getKeyAddress w1.trace c with
  | error e =>
    exact ⟨some e, w1, by simp [Send, hc, hk], by simp, fun _ => rfl, by simp⟩
  | ok raw =>
    cases he : env.encodeBech32AccAddr c raw with
    | error e =>
      refine ⟨some e, w1, by simp [Send, hc, hk, he], by simp [he], fun _ => rfl, ?_⟩
      intro raw2 f2 h1 h2
      simp only [Except.ok.injEq] at h1
      subst h1
      rw [he] at h2
      simp at h2
    | ok faucetAddr =>
      refine ⟨env.sendMsg w1.trace c (Msg.MsgSend faucetAddr toAddr coins),
        w1.emit (Event.sendMsg c.handle (Msg.MsgSend faucetAddr toAddr coins)),
        by simp [Send, hc, hk, he, sendMsg], ?_, ?_, ?_⟩
      · simp only [he, reduceCtorEq, and_false, exists_false, exists_const, false_or,
          Except.ok.injEq, exists_and_left, exists_eq_left']
        cases env.sendMsg w1.trace c (Msg.MsgSend faucetAddr toAddr coins) <;> simp
      · simp [he]
      · intro raw2 f2 h1 h2
        simp only [Except.ok.injEq] at h1
        subst h1
        rw [he] at h2
        simp only [Except.ok.injEq] at h2
        subst h2
        exact ⟨rfl, rfl, rfl⟩

/-- C3 on the umee chain with working collaborators: `Send` returns nil and the
one call after the client is built is the submission of the `MsgSend`. -/
theorem Send_error_iff_step_fails_witness :
    getClient envOK world0 umeeChain =
      (Outcome.ret (umeeClient, { umeeChain with client := some umeeClient }),
        { trace := [Event.getCommit "http://rpc.umee",
                    Event.newChainClient (chainConfig umeeChain "umee-1")],
          allocated := 1 }) ∧
    ∃ r w2, Send envOK world0 umeeChain "umee1dest" requestCoins = (Outcome.ret r, w2) ∧
      r = none ∧
      w2.trace = [Event.getCommit "http://rpc.umee",
        Event.newChainClient (chainConfig umeeChain "umee-1"),
        Event.sendMsg 0 (Msg.MsgSend "umee3" "umee1dest" requestCoins)] := by
  refine ⟨rfl, ?_⟩
  obtain ⟨r, w2, h, _, _, h3⟩ :=
    Send_error_iff_step_fails envOK world0 _ umeeChain _ umeeClient "umee1dest" requestCoins rfl
  obtain ⟨hr, _, ht⟩ := h3 [1, 2, 3] "umee3" rfl rfl
  exact ⟨r, w2, h, hr, ht⟩

/-! ## MultiSend -/

theorem drop_eq_cons_getElem? {α : Type} (xs : List α) (i : Nat) (x : α) (rest : List α)
    (h : xs.drop i = x :: rest) : xs[i]? = some x ∧ xs.drop (i + 1) = rest := by
  induction xs generalizing i with
  | nil => simp at h
  | cons y ys ih =>
    cases i with
    | zero =>
      simp only [List.drop_zero, List.cons.injEq] at h
      simp [h.1, h.2]
    | succ j =>
      simp only [List.drop_succ_cons] at h
      simpa using ih j h

/-- The loop of `MultiSend`, when the coins from index `i` on are `cs`, one per
remaining address, and the remaining addresses encode to `encs`: it appends one
input and one output per address, in order. -/
theorem multiSendLoop_spec (env : Env) (c : ChainClient) (faucetAddrStr : String)
    (coins : List Coins) (rest : List AccAddress) :
    ∀ (i : Nat) (inputs : List Input) (outputs : List Output) (cs : List Coins)
      (encs : List String),
      coins.drop i = cs → cs.length = rest.length →
      List.Forall₂ (fun a s => env.encodeBech32AccAddr c a = Except.ok s) rest encs →
      multiSendLoop env c faucetAddrStr coins rest i inputs outputs =
        Outcome.ret (Except.ok
          (inputs ++ cs.map (fun ci => { Address := faucetAddrStr, Coins := ci }),
           outputs ++ List.zipWith (fun s ci => { Address := s, Coins := ci }) encs cs)) := by
  induction rest with
  | nil =>
    intro i inputs outputs cs encs _ hlen henc
    cases henc
    have : cs = [] := List.length_eq_zero.mp hlen
    subst this
    simp [multiSendLoop]
  | cons a rest1 ih =>
    intro i inputs outputs cs encs hdrop hlen henc
    cases henc with
    | cons ha hrest =>
      rename_i s encs1
      cases cs with
      | nil => simp at hlen
      | cons ci cs1 =>
        obtain ⟨hget, hdrop1⟩ := drop_eq_cons_getElem? coins i ci cs1 hdrop
        have hlen1 : cs1.length = rest1.length := by simpa using hlen
        simp only [multiSendLoop, ha, hget]
        rw [ih (i + 1) _ _ cs1 encs1 hdrop1 hlen1 hrest]
        simp

theorem forall₂_encode_of_forall (env : Env) (c : ChainClient) (toAddr : List AccAddress)
    (henc : ∀ a ∈ toAddr, ∃ s, env.encodeBech32AccAddr c a = Except.ok s) :
    ∃ encs, List.Forall₂ (fun a s => env.encodeBech32AccAddr c a = Except.ok s) toAddr encs := by
  induction toAddr with
  | nil => exact ⟨[], List.Forall₂.nil⟩
  | cons a rest ih =>
    obtain ⟨s, hs⟩ := henc a (by simp)
    obtain ⟨encs, he⟩ := ih (fun b hb => henc b (by simp [hb]))
    exact ⟨s :: encs, List.Forall₂.cons hs he⟩

theorem forall₂_getElem? {α β : Type} (R : α → β → Prop) (xs : List α) (ys : List β)
    (h : List.Forall₂ R xs ys) (i : Nat) (x : α) (hx : xs[i]? = some x) :
    ∃ y, ys[i]? = some y ∧ R x y := by
  induction h generalizing i with
  | nil => simp at hx
  | cons hr _ ih =>
    cases i with
    | zero =>
      simp only [List.getElem?_cons_zero, Option.some.injEq] at hx
      subst hx
      exact ⟨_, by simp, hr⟩
    | succ j =>
      simp only [List.getElem?_cons_succ] at hx
      simpa using ih j hx

/-- C2: when the client is there, the faucet address resolves and encodes, the
two sequences have the same length N and every destination encodes, `MultiSend`
submits one `MsgMultiSend` with N inputs and N outputs; input `i` has the faucet
address and `coins[i]`, output `i` has the encoding of `toAddr[i]` and
`coins[i]`. -/
theorem MultiSend_pairs_in_order (env : Env) (w w1 : World) (chain chain1 : Chain)
    (c : ChainClient) (toAddr : List AccAddress) (coins : List Coins)
    (raw : AccAddress) (faucetAddrStr : String)
    (hc : getClient env w chain = (Outcome.ret (c, chain1), w1))
    (hk : env.getKeyAddress w1.trace c = Except.ok raw)
    (hf : env.encodeBech32AccAddr c raw = Except.ok faucetAddrStr)
    (hlen : toAddr.length = coins.length)
    (henc : ∀ a ∈ toAddr, ∃ s, env.encodeBech32AccAddr c a = Except.ok s) :
    ∃ inputs outputs,
      MultiSend env w chain toAddr coins =
        (Outcome.ret (env.sendMsg w1.trace c (Msg.MsgMultiSend inputs outputs)),
          w1.emit (Event.sendMsg c.handle (Msg.MsgMultiSend inputs outputs))) ∧
      inputs.length = toAddr.length ∧ outputs.length = toAddr.length ∧
      ∀ (i : Nat) (a : AccAddress) (ci : Coins), toAddr[i]? = some a → coins[i]? = some ci →
        inputs[i]? = some (Input.mk faucetAddrStr ci) ∧
        ∃ recipient, env.encodeBech32AccAddr c a = Except.ok recipient ∧
          outputs[i]? = some (Output.mk recipient ci) := by
  obtain ⟨encs, hencs⟩ := forall₂_encode_of_forall env c toAddr henc
  have hloop := multiSendLoop_spec env c faucetAddrStr coins toAddr 0 [] [] coins encs
    (by simp) hlen.symm hencs
  have hel : encs.length = toAddr.length := (List.Forall₂.length_eq hencs).symm
  refine ⟨coins.map (fun ci => { Address := faucetAddrStr, Coins := ci }),
    List.zipWith (fun s ci => { Address := s, Coins := ci }) encs coins,
    by simp [MultiSend, hc, hk, hf, hloop, sendMsg], by simp [hlen],
    by simp [hel, hlen], ?_⟩
  intro i a ci ha hci
  obtain ⟨recipient, hr, hea⟩ := forall₂_getElem? _ toAddr encs hencs i a ha
  refine ⟨by simp [List.getElem?_map, hci], recipient, hea, ?_⟩
  simp [List.getElem?_zipWith, hr, hci]

/-- C2 on the umee chain: two destinations, of one and of two bytes, with two
coin sets. -/
theorem MultiSend_pairs_in_order_witness :
    ∃ inputs outputs,
      MultiSend envOK world0 umeeChain [[7], [8, 9]]
          [[{ Denom := "uumee", Amount := 1 }], [{ Denom := "uumee", Amount := 2 }]] =
        (Outcome.ret none,
          { trace := [Event.getCommit "http://rpc.umee",
              Event.newChainClient (chainConfig umeeChain "umee-1"),
              Event.sendMsg 0 (Msg.MsgMultiSend inputs outputs)],
            allocated := 1 }) ∧
      inputs.length = 2 ∧ outputs.length = 2 ∧
      inputs[1]? = some (Input.mk "umee3" [{ Denom := "uumee", Amount := 2 }]) ∧
      outputs[1]? = some (Output.mk "umee2" [{ Denom := "uumee", Amount := 2 }]) := by
  obtain ⟨inputs, outputs, h, hi, ho, hidx⟩ :=
    MultiSend_pairs_in_order envOK world0 _ umeeChain _ umeeClient [[7], [8, 9]]
      [[{ Denom := "uumee", Amount := 1 }], [{ Denom := "uumee", Amount := 2 }]]
      [1, 2, 3] "umee3" rfl rfl rfl rfl
      (fun a _ => ⟨_, rfl⟩)
  obtain ⟨h1, r, hr, h2⟩ := hidx 1 [8, 9] [{ Denom := "uumee", Amount := 2 }] rfl rfl
  have hr2 : r = "umee2" := by
    have : Except.ok (ε := Err) "umee2" = Except.ok r := hr
    simpa using this.symm
  subst hr2
  exact ⟨inputs, outputs, h, hi, ho, h1, h2⟩

/-! ## The command pattern -/

theorem takeWhile_ne_newline (t : List Char) (h : '\n' ∉ t) :
    t.takeWhile (fun c => c != '\n') = t := by
  induction t with
  | nil => rfl
  | cons c cs ih =>
    have hc : c ≠ '\n' := fun e => h (by simp [e])
    have hcs : '\n' ∉ cs := fun e => h (by simp [e])
    simp [List.takeWhile_cons, hc, ih hcs]

theorem matchHere_request (t : List Char) :
    matchHere ("!request".data ++ t) =
      some ("request".data, t.takeWhile (fun c => c != '\n')) := by
  have h : "!request".data.isPrefixOf ("!request".data ++ t) = true := by
    rw [List.isPrefixOf_iff_prefix]
    exact List.prefix_append _ _
  have hd : ("!request".data ++ t).drop 8 = t := by
    have : "!request".data.length = 8 := by decide
    rw [← this, List.drop_left]
  simp only [matchHere, h, if_true, hd]

theorem firstSubmatch_request (t : List Char) :
    firstSubmatch ("!request".data ++ t) =
      some ("request".data, t.takeWhile (fun c => c != '\n')) := by
  have h := matchHere_request t
  have hcons : "!request".data ++ t = '!' :: ("request".data ++ t) := rfl
  rw [hcons] at h ⊢
  simp only [firstSubmatch, h]

theorem matchHere_eq_none_iff (s : List Char) :
    matchHere s = none ↔ ¬ "!request".data <+: s ∧ ¬ "!help".data <+: s := by
  unfold matchHere
  by_cases h1 : "!request".data.isPrefixOf s = true
  · have h1p := List.isPrefixOf_iff_prefix.mp h1
    simp [h1, h1p]
  · have h1p : ¬ "!request".data <+: s := fun hp => h1 (List.isPrefixOf_iff_prefix.mpr hp)
    by_cases h2 : "!help".data.isPrefixOf s = true
    · have h2p := List.isPrefixOf_iff_prefix.mp h2
      simp [h1, h2, h2p]
    · have h2p : ¬ "!help".data <+: s := fun hp => h2 (List.isPrefixOf_iff_prefix.mpr hp)
      simp [h1, h2, h1p, h2p]

/-- The pattern has no match in a text exactly when neither `!request` nor
`!help` occurs in it. -/
theorem firstSubmatch_eq_none_iff (s : List Char) :
    firstSubmatch s = none ↔ ¬ "!request".data <:+: s ∧ ¬ "!help".data <:+: s := by
  induction s with
  | nil =>
    simp only [firstSubmatch, List.infix_nil, true_iff]
    exact ⟨by decide, by decide⟩
  | cons c cs ih =>
    have hstep : firstSubmatch (c :: cs) = none ↔
        matchHere (c :: cs) = none ∧ firstSubmatch cs = none := by
      cases hm : matchHere (c :: cs) with
      | none => simp [firstSubmatch, hm]
      | some r => simp [firstSubmatch, hm]
    rw [hstep, matchHere_eq_none_iff, ih, List.infix_cons_iff, List.infix_cons_iff]
    tauto

theorem firstSubmatch_ping : firstSubmatch "!ping".data = none := by
  decide

/-- A text in which the pattern matches is not the text `!ping`. -/
theorem content_ne_ping_of_match (content : String) (r : List Char × List Char)
    (h : firstSubmatch content.data = some r) : content ≠ "!ping" := by
  intro hc
  rw [hc, firstSubmatch_ping] at h
  simp at h

theorem parseCommand_ne_ping (content : String) (r : String × String)
    (h : parseCommand content = some r) : content ≠ "!ping" := by
  unfold parseCommand at h
  cases hm : firstSubmatch content.data with
  | none => simp [hm] at h
  | some g => exact content_ne_ping_of_match content g hm

theorem pingAck_of_ne (env : Env) (w : World) (m : MessageCreate) (h : m.Content ≠ "!ping") :
    pingAck env w m = (true, w) := by
  simp [pingAck, h]

theorem TrimSpace_request : TrimSpace "request" = "request" := by
  decide

theorem parseCommand_request (t : String) (hnl : '\n' ∉ t.data) :
    parseCommand ("!request" ++ t) = some ("request", TrimSpace t) := by
  have hd : ("!request" ++ t).data = "!request".data ++ t.data := String.data_append _ _
  have ht : TrimSpace (String.mk t.data) = TrimSpace t := rfl
  have hr : TrimSpace (String.mk "request".data) = "request" := TrimSpace_request
  unfold parseCommand
  rw [hd, firstSubmatch_request, takeWhile_ne_newline t.data hnl]
  show some (TrimSpace (String.mk "request".data), TrimSpace (String.mk t.data)) = _
  rw [hr, ht]

/-- C4: for a text `t` without a newline, the content `!request` followed by `t`
is parsed as the command `request` with the argument `t` trimmed of surrounding
white space, and the handler of a message with that content (not written by the
bot itself) runs the request case with that argument as the destination
address. -/
theorem request_argument_is_trimmed_rest (t : String) (hnl : '\n' ∉ t.data) :
    parseCommand ("!request" ++ t) = some ("request", TrimSpace t) ∧
    ∀ (env : Env) (chains : Chains) (selfID helpMsg : String) (w : World) (m : MessageCreate),
      m.Content = "!request" ++ t → m.AuthorID ≠ selfID →
      messageCreate env chains selfID helpMsg w m =
        requestCase env chains w m requestPrefix (TrimSpace t) := by
  have hp := parseCommand_request t hnl
  refine ⟨hp, ?_⟩
  intro env chains selfID helpMsg w m hm hself
  have hne : m.Content ≠ "!ping" := by
    rw [hm]
    exact parseCommand_ne_ping _ _ hp
  rw [← hm] at hp
  simp [messageCreate, hself, pingAck_of_ne env w m hne, commandPart, hp]

/-- C4 on the example of the specification: the content `!request umee1abc...`
gives the command `request` with the argument `umee1abc...`. -/
theorem request_argument_is_trimmed_rest_witness :
    '\n' ∉ " umee1abc...".data ∧ TrimSpace " umee1abc..." = "umee1abc..." ∧
    parseCommand ("!request" ++ " umee1abc...") = some ("request", TrimSpace " umee1abc...") :=
  ⟨by decide, by decide, (request_argument_is_trimmed_rest " umee1abc..." (by decide)).1⟩

/-! ## The handler -/

/-- What the ping part adds to the trace on the content `!ping`: a non-empty
initial part of the three calls, all three when Discord answers with success. -/
theorem pingAck_of_ping (env : Env) (w : World) (m : MessageCreate) (h : m.Content = "!ping") :
    ∃ extra, (pingAck env w m).2 = { w with trace := w.trace ++ extra } ∧
      extra <+: pingEvents m ∧ extra ≠ [] ∧
      ((pingAck env w m).1 = true → extra = pingEvents m) ∧
      (discordOK env → (pingAck env w m).1 = true) := by
  unfold pingAck
  simp only [h, if_true]
  cases h1 : env.messageReactionAdd w.trace m.ChannelID m.ID "👍" with
  | some e =>
    refine ⟨[Event.messageReactionAdd m.ChannelID m.ID "👍"], rfl, ?_, by simp, by simp, ?_⟩
    · exact ⟨_, rfl⟩
    · intro hok
      rw [hok.1] at h1
      simp at h1
  | none =>
    cases h2 : env.messageReactionAdd (w.emit (Event.messageReactionAdd m.ChannelID m.ID "👍")).trace
        m.ChannelID m.ID "💸" with
    | some e =>
      refine ⟨[Event.messageReactionAdd m.ChannelID m.ID "👍",
        Event.messageReactionAdd m.ChannelID m.ID "💸"], by simp [World.emit], ?_, by simp,
        by simp, ?_⟩
      · exact ⟨_, rfl⟩
      · intro hok
        rw [hok.1] at h2
        simp at h2
    | none =>
      cases h3 : env.channelMessageSend
          ((w.emit (Event.messageReactionAdd m.ChannelID m.ID "👍")).emit
            (Event.messageReactionAdd m.ChannelID m.ID "💸")).trace m.ChannelID "Pong!" with
      | some e =>
        refine ⟨pingEvents m, by simp [World.emit, pingEvents], List.prefix_refl _,
          by simp [pingEvents], by simp, ?_⟩
        intro hok
        rw [hok.2] at h3
        simp at h3
      | none =>
        exact ⟨pingEvents m, by simp [World.emit, pingEvents], List.prefix_refl _,
          by simp [pingEvents], by simp, by simp⟩

theorem messageCreate_of_no_match (env : Env) (chains : Chains) (selfID helpMsg : String)
    (w : World) (m : MessageCreate) (hno : firstSubmatch m.Content.data = none) :
    messageCreate env chains selfID helpMsg w m =
      (Outcome.ret (), if m.AuthorID = selfID then w else (pingAck env w m).2) := by
  unfold messageCreate
  by_cases hself : m.AuthorID = selfID
  · simp [hself]
  · simp only [hself, if_false]
    rcases hp : pingAck env w m with ⟨b, w1⟩
    cases b with
    | false => rfl
    | true => simp [commandPart, parseCommand, hno, debugError]

/-- C5, as the code has it: a message in whose text neither `!request` nor
`!help` occurs gets no help document and starts no dispatch. The handler
returns, and all it can have added to the trace is an initial part of the three
calls of the ping answer; unless the text is exactly `!ping` it adds nothing. -/
theorem unmatched_message_is_ignored (env : Env) (chains : Chains) (selfID helpMsg : String)
    (w : World) (m : MessageCreate)
    (hreq : ¬ "!request".data <:+: m.Content.data)
    (hhelp : ¬ "!help".data <:+: m.Content.data) :
    ∃ extra, messageCreate env chains selfID helpMsg w m =
        (Outcome.ret (), { w with trace := w.trace ++ extra }) ∧
      extra <+: pingEvents m ∧ (m.Content ≠ "!ping" → extra = []) := by
  have hno : firstSubmatch m.Content.data = none :=
    (firstSubmatch_eq_none_iff _).mpr ⟨hreq, hhelp⟩
  rw [messageCreate_of_no_match env chains selfID helpMsg w m hno]
  by_cases hself : m.AuthorID = selfID
  · exact ⟨[], by simp [hself], List.nil_prefix, fun _ => rfl⟩
  · simp only [hself, if_false]
    by_cases hping : m.Content = "!ping"
    · obtain ⟨extra, he, hpre, _, _⟩ := pingAck_of_ping env w m hping
      exact ⟨extra, by rw [he], hpre, fun h => absurd hping h⟩
    · exact ⟨[], by simp [pingAck_of_ne env w m hping], List.nil_prefix, fun _ => rfl⟩

/-- C5 on `hello world`: the pattern does not occur, and the handler returns
without a call. -/
theorem unmatched_message_is_ignored_witness :
    ¬ "!request".data <:+: "hello world".data ∧ ¬ "!help".data <:+: "hello world".data ∧
    ∃ extra, messageCreate envOK [umeeChain] "bot" "usage: !request <address>" world0
        (userMessage "hello world") =
        (Outcome.ret (), { world0 with trace := world0.trace ++ extra }) ∧ extra = [] := by
  have h1 : ¬ "!request".data <:+: "hello world".data :=
    ((firstSubmatch_eq_none_iff "hello world".data).mp (by decide)).1
  have h2 : ¬ "!help".data <:+: "hello world".data :=
    ((firstSubmatch_eq_none_iff "hello world".data).mp (by decide)).2
  obtain ⟨extra, h, _, he⟩ := unmatched_message_is_ignored envOK [umeeChain] "bot"
    "usage: !request <address>" world0 (userMessage "hello world") h1 h2
  exact ⟨h1, h2, extra, h, he (by decide)⟩

/-- C5 fails as stated: on `hello world`, with every collaborator working, the
handler returns with an empty trace, so the help document was not sent. -/
theorem unmatched_message_no_help_sent :
    firstSubmatch "hello world".data = none ∧
    messageCreate envOK [umeeChain] "bot" "usage: !request <address>" world0
      (userMessage "hello world") = (Outcome.ret (), world0) ∧
    Event.channelMessageSend "chan" "usage: !request <address>" ∉
      (messageCreate envOK [umeeChain] "bot" "usage: !request <address>" world0
        (userMessage "hello world")).2.trace := by
  decide

/-- C6, as the code has it: for a message not written by the bot itself, the
ping answer starts exactly when the content is `!ping`, compared as it is and
not trimmed. On `!ping` the handler makes a non-empty initial part of the three
calls (two reactions, then `Pong!`), all three when Discord answers with
success, and returns; on every other content the ping part makes no call and the
handler goes on to the command part. -/
theorem ping_iff_content_is_exactly_ping (env : Env) (chains : Chains)
    (selfID helpMsg : String) (w : World) (m : MessageCreate) (hself : m.AuthorID ≠ selfID) :
    (m.Content = "!ping" →
      ∃ extra, messageCreate env chains selfID helpMsg w m =
          (Outcome.ret (), { w with trace := w.trace ++ extra }) ∧
        extra <+: pingEvents m ∧ extra ≠ [] ∧ (discordOK env → extra = pingEvents m)) ∧
    (m.Content ≠ "!ping" →
      pingAck env w m = (true, w) ∧
      messageCreate env chains selfID helpMsg w m = commandPart env chains helpMsg w m) := by
  constructor
  · intro hping
    have hno : firstSubmatch m.Content.data = none := by
      rw [hping]
      exact firstSubmatch_ping
    obtain ⟨extra, he, hpre, hne, hall, hok⟩ := pingAck_of_ping env w m hping
    refine ⟨extra, ?_, hpre, hne, fun h => hall (hok h)⟩
    rw [messageCreate_of_no_match env chains selfID helpMsg w m hno]
    simp [hself, he]
  · intro hne
    have hp := pingAck_of_ne env w m hne
    exact ⟨hp, by simp [messageCreate, hself, hp]⟩

theorem discordOK_envOK : discordOK envOK :=
  ⟨fun _ _ _ _ => rfl, fun _ _ _ => rfl⟩

/-- C6 on `!ping` from a user: both reactions and `Pong!`. -/
theorem ping_iff_content_is_exactly_ping_witness :
    (userMessage "!ping").AuthorID ≠ "bot" ∧
    ∃ extra, messageCreate envOK [umeeChain] "bot" "usage: !request <address>" world0
        (userMessage "!ping") = (Outcome.ret (), { world0 with trace := world0.trace ++ extra }) ∧
      extra = [Event.messageReactionAdd "chan" "42" "👍",
        Event.messageReactionAdd "chan" "42" "💸", Event.channelMessageSend "chan" "Pong!"] := by
  have hself : (userMessage "!ping").AuthorID ≠ "bot" := by decide
  obtain ⟨extra, h, _, _, hall⟩ :=
    (ping_iff_content_is_exactly_ping envOK [umeeChain] "bot" "usage: !request <address>"
      world0 (userMessage "!ping") hself).1 rfl
  exact ⟨hself, extra, h, hall discordOK_envOK⟩

/-- C6 fails as stated: the content ` !ping ` is `!ping` once trimmed, yet the
handler makes no call on it. -/
theorem padded_ping_is_not_answered :
    TrimSpace " !ping " = "!ping" ∧
    messageCreate envOK [umeeChain] "bot" "usage: !request <address>" world0
      (userMessage " !ping ") = (Outcome.ret (), world0) := by
  decide

/-- C8, as the code has it: the handler of a request message not written by the
bot runs the request case, and whatever prefix that case looks up: when the
lookup finds no chain the process is ended through `log.Fatalf` with the world
untouched (no submission, no reply); when `Chain.Send` on the chain found
returns an error the process is ended through `log.Fatal` with the world as
`Send` left it (no further submission, no reply). -/
theorem request_failure_ends_process (env : Env) (chains : Chains) (selfID helpMsg : String)
    (w : World) (m : MessageCreate) (args : String) (hself : m.AuthorID ≠ selfID)
    (hparse : parseCommand m.Content = some ("request", args)) :
    messageCreate env chains selfID helpMsg w m =
      requestCase env chains w m requestPrefix args ∧
    ∀ pfx : String,
      (FindByPrefix chains pfx = none →
        requestCase env chains w m pfx args =
          (Outcome.fatal (pfx ++ " prefix is not supported"), w)) ∧
      (∀ chain e w1, FindByPrefix chains pfx = some chain →
        Send env w chain args requestCoins = (Outcome.ret (some e), w1) →
        requestCase env chains w m pfx args = (Outcome.fatal e, w1)) := by
  have hp := pingAck_of_ne env w m (parseCommand_ne_ping _ _ hparse)
  refine ⟨by simp [messageCreate, hself, hp, commandPart, hparse], ?_⟩
  intro pfx
  constructor
  · intro hnone
    simp only [requestCase, hnone]
  · intro chain e w1 hsome hsend
    simp only [requestCase, hsome, hsend]

/-- C8 on a request against a registry whose chain is found and whose broadcast
fails: the process ends, and the last call made is the failed submission. -/
theorem request_failure_ends_process_witness :
    (userMessage "!request umee1abc").AuthorID ≠ "bot" ∧
    parseCommand (userMessage "!request umee1abc").Content = some ("request", "umee1abc") ∧
    messageCreate envSendFails [umeeChain] "bot" "usage: !request <address>" world0
        (userMessage "!request umee1abc") =
      (Outcome.fatal "insufficient funds",
        { trace := [Event.getCommit "http://rpc.umee",
            Event.newChainClient (chainConfig umeeChain "umee-1"),
            Event.sendMsg 0 (Msg.MsgSend "umee3" "umee1abc" requestCoins)],
          allocated := 1 }) := by
  have h := request_failure_ends_process envSendFails [umeeChain] "bot"
    "usage: !request <address>" world0 (userMessage "!request umee1abc") "umee1abc"
    (by decide) (by decide)
  refine ⟨by decide, by decide, ?_⟩
  rw [h.1]
  exact (h.2 requestPrefix).2 umeeChain "insufficient funds" _ (by decide) (by decide)

/-- C8 fails as stated: a request against an empty registry ends the process
and sends nothing, and so does a request whose submission fails. -/
theorem request_failure_is_not_reported :
    messageCreate envOK [] "bot" "usage: !request <address>" world0
        (userMessage "!request umee1abc") =
      (Outcome.fatal "umee prefix is not supported", world0) ∧
    (messageCreate envSendFails [umeeChain] "bot" "usage: !request <address>" world0
        (userMessage "!request umee1abc")).1 = Outcome.fatal "insufficient funds" ∧
    ((messageCreate envSendFails [umeeChain] "bot" "usage: !request <address>" world0
        (userMessage "!request umee1abc")).2.trace.filter Event.isDiscord) = [] := by
  decide

/-- The prefix of a request is not taken from its address: a request for an
`osmo` address against the registry `[umee]` is served by the umee chain (a
`MsgSend` to the `osmo` address is submitted and the handler returns), and
against the registry `[osmo]` it ends the process for want of `umee`. -/
theorem request_prefix_is_not_inferred :
    (messageCreate envOK [umeeChain] "bot" "usage: !request <address>" world0
        (userMessage "!request osmo1abc")).1 = Outcome.ret () ∧
    ((messageCreate envOK [umeeChain] "bot" "usage: !request <address>" world0
        (userMessage "!request osmo1abc")).2.trace.filter (fun e => !e.isDiscord)) =
      [Event.getCommit "http://rpc.umee",
        Event.newChainClient (chainConfig umeeChain "umee-1"),
        Event.sendMsg 0 (Msg.MsgSend "umee3" "osmo1abc" requestCoins)] ∧
    messageCreate envOK [osmoChain] "bot" "usage: !request <address>" world0
        (userMessage "!request osmo1abc") =
      (Outcome.fatal "umee prefix is not supported", world0) := by
  decide

/-! ## The latch of the lazy client over sequences of operations -/

/-- C10: two `Send` in a row on the uninitialised umee chain, with every
collaborator working: both return, yet the registry entry still has no client,
the chain id was discovered twice and two clients were built (handles 0 and
1). `Send` has a value receiver, so the client `getClient` stores goes into a
copy of the chain. -/
theorem send_twice_builds_two_clients :
    runOps envOK world0 umeeChain
        [Op.Send "umee1a" requestCoins, Op.Send "umee1b" requestCoins] =
      (Outcome.ret umeeChain,
        { trace := [Event.getCommit "http://rpc.umee",
            Event.newChainClient (chainConfig umeeChain "umee-1"),
            Event.sendMsg 0 (Msg.MsgSend "umee3" "umee1a" requestCoins),
            Event.getCommit "http://rpc.umee",
            Event.newChainClient (chainConfig umeeChain "umee-1"),
            Event.sendMsg 1 (Msg.MsgSend "umee3" "umee1b" requestCoins)],
          allocated := 2 }) ∧
    umeeChain.client = none ∧
    discoveries (runOps envOK world0 umeeChain
        [Op.Send "umee1a" requestCoins, Op.Send "umee1b" requestCoins]).2.trace = 2 ∧
    constructions (runOps envOK world0 umeeChain
        [Op.Send "umee1a" requestCoins, Op.Send "umee1b" requestCoins]).2.trace = 2 := by
  decide

theorem discoveries_emit (w : World) (e : Event) :
    discoveries (w.emit e).trace = discoveries w.trace + (if e.isDiscovery then 1 else 0) := by
  cases h : e.isDiscovery <;> simp [discoveries, World.emit, List.countP_append, h]

theorem constructions_emit (w : World) (e : Event) :
    constructions (w.emit e).trace =
      constructions w.trace + (if e.isClientConstruction then 1 else 0) := by
  cases h : e.isClientConstruction <;> simp [constructions, World.emit, List.countP_append, h]

/-- One call of `getClient` makes at most one discovery round trip and builds at
most one client. -/
theorem getClient_counts (env : Env) (w : World) (chain : Chain) :
    discoveries (getClient env w chain).2.trace ≤ discoveries w.trace + 1 ∧
    constructions (getClient env w chain).2.trace ≤ constructions w.trace + 1 := by
  unfold getClient
  cases chain.client with
  | some c => simp
  | none =>
    simp only
    split
    · simp [discoveries_emit, constructions_emit, Event.isDiscovery, Event.isClientConstruction]
    · simp [discoveries_emit, constructions_emit, Event.isDiscovery, Event.isClientConstruction]
    · simp [discoveries_emit, constructions_emit, Event.isDiscovery, Event.isClientConstruction]
    · split
      · simp [discoveries_emit, constructions_emit, Event.isDiscovery,
          Event.isClientConstruction]
      · simp only [World.emit, discoveries, constructions, List.countP_append]
        simp [Event.isDiscovery, Event.isClientConstruction]

/-- On a chain whose client is set, one operation leaves the registry entry as
it is, makes no discovery round trip and builds no client. -/
theorem applyOp_of_client (env : Env) (w : World) (chain : Chain) (c : ChainClient) (op : Op)
    (h : chain.client = some c) :
    discoveries (applyOp env w chain op).2.trace = discoveries w.trace ∧
    constructions (applyOp env w chain op).2.trace = constructions w.trace ∧
    ∀ chain1, (applyOp env w chain op).1 = Outcome.ret chain1 → chain1 = chain := by
  have hg := getClient_of_client env w chain c h
  cases op with
  | ImportMnemonic mnemonic =>
    cases hr : env.restoreKey w.trace c "anon" mnemonic <;>
      simp [applyOp, ImportMnemonic, hg, hr, discoveries_emit, constructions_emit,
        Event.isDiscovery, Event.isClientConstruction]
  | Send toAddr coins =>
    cases hk : env.getKeyAddress w.trace c with
    | error e => simp [applyOp, Send, hg, hk]
    | ok raw =>
      cases he : env.encodeBech32AccAddr c raw with
      | error e => simp [applyOp, Send, hg, hk, he]
      | ok faucetAddr =>
        simp [applyOp, Send, hg, hk, he, sendMsg, discoveries_emit, constructions_emit,
          Event.isDiscovery, Event.isClientConstruction]
  | MultiSend toAddr coins =>
    cases hk : env.getKeyAddress w.trace c with
    | error e => simp [applyOp, MultiSend, hg, hk]
    | ok raw =>
      cases he : env.encodeBech32AccAddr c raw with
      | error e => simp [applyOp, MultiSend, hg, hk, he]
      | ok faucetAddr =>
        cases hl : multiSendLoop env c faucetAddr coins toAddr 0 [] [] with
        | panic msg => simp [applyOp, MultiSend, hg, hk, he, hl]
        | fatal msg => simp [applyOp, MultiSend, hg, hk, he, hl]
        | ret r =>
          cases r with
          | error e => simp [applyOp, MultiSend, hg, hk, he, hl]
          | ok io =>
            simp [applyOp, MultiSend, hg, hk, he, hl, sendMsg, discoveries_emit,
              constructions_emit, Event.isDiscovery, Event.isClientConstruction]
  | DecodeAddr a =>
    simp [applyOp, DecodeAddr, hg]

/-- Once the client is set in the registry entry, no sequence of operations
makes a discovery round trip or builds a client, and the entry keeps its
client. -/
theorem runOps_of_client (env : Env) (c : ChainClient) (ops : List Op) :
    ∀ (w : World) (chain : Chain), chain.client = some c →
      discoveries (runOps env w chain ops).2.trace = discoveries w.trace ∧
      constructions (runOps env w chain ops).2.trace = constructions w.trace ∧
      ∀ chain1, (runOps env w chain ops).1 = Outcome.ret chain1 → chain1 = chain := by
  induction ops with
  | nil =>
    intro w chain _
    simp [runOps]
  | cons op ops ih =>
    intro w chain h
    obtain ⟨hd, hk, hch⟩ := applyOp_of_client env w chain c op h
    unfold runOps
    rcases hop : applyOp env w chain op with ⟨r, w1⟩
    rw [hop] at hd hk hch
    cases r with
    | panic msg => exact ⟨hd, hk, by simp⟩
    | fatal msg => exact ⟨hd, hk, by simp⟩
    | ret chain1 =>
      have hc1 : chain1 = chain := hch chain1 rfl
      subst hc1
      obtain ⟨hd2, hk2, hch2⟩ := ih w1 chain1 h
      exact ⟨by simpa [hd] using hd2, by simpa [hk] using hk2, hch2⟩

/-- A sequence that starts with `ImportMnemonic`, the one operation with a
pointer receiver, makes at most one discovery round trip and builds at most one
client, whatever follows. -/
theorem runOps_import_first (env : Env) (w : World) (chain : Chain) (mnemonic : String)
    (ops : List Op) :
    discoveries (runOps env w chain (Op.ImportMnemonic mnemonic :: ops)).2.trace ≤
      discoveries w.trace + 1 ∧
    constructions (runOps env w chain (Op.ImportMnemonic mnemonic :: ops)).2.trace ≤
      constructions w.trace + 1 := by
  have hcount := getClient_counts env w chain
  simp only [runOps, applyOp, ImportMnemonic]
  rcases hg : getClient env w chain with ⟨r, w1⟩
  rw [hg] at hcount
  cases r with
  | panic msg => exact hcount
  | fatal msg => exact hcount
  | ret p =>
    obtain ⟨c, chain1⟩ := p
    have hcl := getClient_ret_client env w w1 chain chain1 c hg
    have hw2 : ∀ w2 : World, discoveries w2.trace = discoveries w1.trace →
        constructions w2.trace = constructions w1.trace →
        discoveries (runOps env w2 chain1 ops).2.trace ≤ discoveries w.trace + 1 ∧
        constructions (runOps env w2 chain1 ops).2.trace ≤ constructions w.trace + 1 := by
      intro w2 h1 h2
      obtain ⟨hd, hk, _⟩ := runOps_of_client env c ops w2 chain1 hcl
      rw [hd, hk, h1, h2]
      exact hcount
    cases hr : env.restoreKey w1.trace c "anon" mnemonic with
    | error e =>
      simp only [hr]
      exact hw2 (w1.emit (Event.restoreKey c.handle "anon" mnemonic))
        (by simp [discoveries_emit, Event.isDiscovery])
        (by simp [constructions_emit, Event.isClientConstruction])
    | ok k =>
      simp only [hr]
      exact hw2 (w1.emit (Event.restoreKey c.handle "anon" mnemonic))
        (by simp [discoveries_emit, Event.isDiscovery])
        (by simp [constructions_emit, Event.isClientConstruction])

end Fonzie
